import Mathlib

/-!
Shallow embedding of the wow_blizzard Home Assistant integration
(api_client.py, sensor.py, const.py) and verification of the frozen
claims about it.

Raw API documents are modelled as an untyped JSON value; the Python
dict/list operations used by the code are embedded with Python
semantics (dict.get with defaults, truthiness, key membership), and
operations that would raise in Python are modelled in the Except monad.
Python's round on a quotient of integers is modelled as exact
round-half-to-even of the rational quotient.
-/

namespace WowBlizzard

/-- Untyped JSON-like document, the shape of every raw API payload. -/
inductive Json where
  | null
  | bool (b : Bool)
  | num (n : Int)
  | str (s : String)
  | arr (elems : List Json)
  | obj (fields : List (String × Json))

/-- Lookup of a key in a Python dict (first binding wins; Python dicts
have unique keys, so association lists with unique keys model them). -/
def lookupField : List (String × Json) → String → Option Json
  | [], _ => none
  | (k, v) :: rest, key => if k == key then some v else lookupField rest key

/-- The empty document `{}` that the request gateway returns on errors. -/
def emptyDoc : Json := .obj []

/-- Python truthiness of a JSON value. -/
def truthy : Json → Bool
  | .null => false
  | .bool b => b
  | .num n => n != 0
  | .str s => !s.isEmpty
  | .arr xs => !xs.isEmpty
  | .obj kvs => !kvs.isEmpty

/-- Python `d.get(key, default)`: raises (here: errors) when `d` is not
a dict, otherwise returns the binding or the default. -/
def pyGetD (j : Json) (key : String) (dflt : Json) : Except Unit Json :=
  match j with
  | .obj kvs => .ok ((lookupField kvs key).getD dflt)
  | _ => .error ()

/-- Python `d.get(key)` (default `None`). -/
def pyGet (j : Json) (key : String) : Except Unit Json :=
  pyGetD j key .null

/-- Python subscript `d[key]`: KeyError (here: error) when absent. -/
def pyIndex (j : Json) (key : String) : Except Unit Json :=
  match j with
  | .obj kvs =>
    match lookupField kvs key with
    | some v => .ok v
    | none => .error ()
  | _ => .error ()

/-- Python `key in d` on a dict. -/
def pyHasKey (j : Json) (key : String) : Except Unit Bool :=
  match j with
  | .obj kvs => .ok ((lookupField kvs key).isSome)
  | _ => .error ()

/-- A JSON value used in integer arithmetic; non-numbers raise. -/
def asInt : Json → Except Unit Int
  | .num n => .ok n
  | _ => .error ()

/-- A JSON value that the Python code iterates as a list. -/
def asArr : Json → Except Unit (List Json)
  | .arr xs => .ok xs
  | _ => .error ()

/-- A JSON value on which the Python code calls a string method. -/
def asStr : Json → Except Unit String
  | .str s => .ok s
  | _ => .error ()

/-- The fields of a dict in insertion order, as iterated by `.items()`. -/
def asObj : Json → Except Unit (List (String × Json))
  | .obj kvs => .ok kvs
  | _ => .error ()

/-- Python equality test of a JSON value against a string literal. -/
def isStrEq (j : Json) (s : String) : Bool :=
  match j with
  | .str t => t == s
  | _ => false

/-- Python `round(t / c)` for integers `t` and positive `c`: the
rational quotient rounded to the nearest integer, ties to even. -/
def pyRound (t c : Int) : Int :=
  let q := Int.fdiv t c
  let r := t - q * c
  if 2 * r < c then q
  else if c < 2 * r then q + 1
  else if Int.emod q 2 == 0 then q else q + 1

/-- Python `str.lower()`, restricted to its ASCII action. -/
def pyLower (s : String) : String :=
  String.mk (s.data.map Char.toLower)

/-- Does `needle` occur at the start of `hay`? -/
def leadsWith : List Char → List Char → Bool
  | [], _ => true
  | _ :: _, [] => false
  | a :: as, b :: bs => a == b && leadsWith as bs

/-- Does `needle` occur as a contiguous segment of `hay`? -/
def hasSegment (needle : List Char) : List Char → Bool
  | [] => needle.isEmpty
  | b :: bs => leadsWith needle (b :: bs) || hasSegment needle bs

/-- Python `needle in hay` on strings (for nonempty needles). -/
def pyInStr (needle hay : String) : Bool :=
  hasSegment needle.data hay.data

/-! ## Request gateway (api_client.py, `_make_request`)

A request is modelled against a trace of HTTP events, one event per
attempt: a response with a status and a body, or a timeout, or another
network error. `_make_request` consumes one event per attempt; on a
429 it sleeps and re-issues the same request against the rest of the
trace. The result pairs the returned document with the number of
attempts made (so the retry behaviour is observable); `none` models a
trace exhausted by 429 responses (the code would still be retrying). -/

/-- One HTTP attempt's outcome as seen by `_make_request`. -/
inductive HttpEvent where
  | response (status : Nat) (body : Json)
  | timeout
  | netError

/-- Is the event a 429 (throttled) response? -/
def is429 : HttpEvent → Bool
  | .response status _ => status == 429
  | _ => false

/-- Embedding of `WoWBlizzardAPIClient._make_request`: 200 returns the
parsed body, 404 and every other non-200 status return the empty
document, timeouts and other errors are caught and return the empty
document, and 429 sleeps and re-issues the request. The second
component counts attempts. -/
def makeRequest : List HttpEvent → Option (Json × Nat)
  | [] => none
  | .response status body :: rest =>
    if status == 200 then some (body, 1)
    else if status == 404 then some (emptyDoc, 1)
    else if status == 429 then
      match makeRequest rest with
      | some (doc, n) => some (doc, n + 1)
      | none => none
    else some (emptyDoc, 1)
  | .timeout :: _ => some (emptyDoc, 1)
  | .netError :: _ => some (emptyDoc, 1)

/-- The caller-visible document of a single non-429 event, as decided
by the status-code policy table. -/
def outcomeOf : HttpEvent → Json
  | .response status body => if status == 200 then body else emptyDoc
  | .timeout => emptyDoc
  | .netError => emptyDoc

/-- A 429 response event (the body of a 429 is never read). -/
def ev429 : HttpEvent := .response 429 .null

/-! ## Basic character data (sensor.py, `_fetch_basic_character_data`)

A per-entity metric record is a Python dict from metric name to value,
modelled as an association list from `String` to `Json`. -/

/-- A per-entity metric record (dict from metric name to value). -/
abbrev Record := List (String × Json)

/-- The item-level loop body: accumulate `item_level` over the equipped
items that carry one, counting them. -/
def sumItemLevels : List Json → Int → Int → Except Unit (Int × Int)
  | [], total, count => .ok (total, count)
  | item :: rest, total, count => do
    let has ← pyHasKey item "item_level"
    if has then
      let lvl ← asInt (← pyIndex item "item_level")
      sumItemLevels rest (total + lvl) (count + 1)
    else
      sumItemLevels rest total count

/-- Embedding of the item-level computation in
`_fetch_basic_character_data` (sensor.py lines 81-90). -/
def computeItemLevel (equipment : Json) : Except Unit Int := do
  let itemsJ ← pyGet equipment "equipped_items"
  if truthy itemsJ then
    let items ← asArr (← pyIndex equipment "equipped_items")
    let (total, count) ← sumItemLevels items 0 0
    if 0 < count then return pyRound total count else return 0
  else
    return 0

/-- Embedding of the body of `_fetch_basic_character_data` (the three
documents have already been fetched); errors model Python exceptions
reaching the surrounding `except` clause. -/
def fetchBasic (profile equipment achievements : Json) :
    Except Unit Record := do
  let itemLevel ← computeItemLevel equipment
  let achievementPoints ← pyGetD achievements "total_points" (.num 0)
  let guildJ ← pyGet profile "guild"
  let guildName ←
    if truthy guildJ then do
      pyIndex (← pyIndex profile "guild") "name"
    else
      pure Json.null
  let level ← pyGetD profile "level" (.num 0)
  let lastLogin ← pyGet profile "last_login_timestamp"
  let className ← pyGet (← pyGetD profile "character_class" (.obj [])) "name"
  let raceName ← pyGet (← pyGetD profile "race" (.obj [])) "name"
  let realmName ← pyGet (← pyGetD profile "realm" (.obj [])) "name"
  let factionName ← pyGet (← pyGetD profile "faction" (.obj [])) "name"
  let genderName ← pyGet (← pyGetD profile "gender" (.obj [])) "name"
  let specName ← pyGet (← pyGetD profile "active_spec" (.obj [])) "name"
  return [("character_level", level),
          ("character_item_level", .num itemLevel),
          ("guild_name", guildName),
          ("achievement_points", achievementPoints),
          ("last_login_timestamp", lastLogin),
          ("character_class", className),
          ("character_race", raceName),
          ("realm", realmName),
          ("faction", factionName),
          ("gender", genderName),
          ("spec", specName)]

/-- `_fetch_basic_character_data` with its `except` clause: any raised
exception degrades to the empty record `{}`. -/
def fetchBasicSafe (profile equipment achievements : Json) : Record :=
  match fetchBasic profile equipment achievements with
  | .ok r => r
  | .error _ => []

/-! ## PvP data (sensor.py, `_fetch_pvp_data`) -/

/-- Embedding of `get_all_pvp_data` (api_client.py): the summary plus
the three bracket documents, keyed in `PVP_BRACKETS` insertion order. -/
def getAllPvpData (summary b2v2 b3v3 brbg : Json) : Json :=
  .obj [("summary", summary), ("2v2", b2v2), ("3v3", b3v3), ("rbg", brbg)]

/-- The bracket loop of `_fetch_pvp_data`: state is the three ratings
(left as raw document values, as in the source) and the wins sum. -/
def pvpLoop : List (String × Json) → Json → Json → Json → Int →
    Except Unit (Json × Json × Json × Int)
  | [], r2, r3, rbg, wins => .ok (r2, r3, rbg, wins)
  | (bracket, data) :: rest, r2, r3, rbg, wins =>
    if bracket == "summary" then pvpLoop rest r2 r3 rbg wins
    else if !(truthy data) then pvpLoop rest r2 r3 rbg wins
    else do
      let hasRating ← pyHasKey data "rating"
      if !hasRating then pvpLoop rest r2 r3 rbg wins
      else do
        let rating ← pyIndex data "rating"
        let stats ← pyGetD data "season_match_statistics" (.obj [])
        let won ← asInt (← pyGetD stats "won" (.num 0))
        let wins2 := wins + won
        if bracket == "2v2" then pvpLoop rest rating r3 rbg wins2
        else if bracket == "3v3" then pvpLoop rest r2 rating rbg wins2
        else if bracket == "rbg" then pvpLoop rest r2 r3 rating wins2
        else pvpLoop rest r2 r3 rbg wins2

/-- Embedding of the body of `_fetch_pvp_data` on the already-fetched
combined PvP document. -/
def fetchPvp (pvpData : Json) : Except Unit Record := do
  let summaryJ ← pyGet pvpData "summary"
  let honor ←
    if truthy summaryJ then do
      pyGetD (← pyIndex pvpData "summary") "honor_level" (.num 0)
    else
      pure (Json.num 0)
  let entries ← asObj pvpData
  let (r2, r3, rbg, wins) ← pvpLoop entries (.num 0) (.num 0) (.num 0) 0
  return [("pvp_2v2_rating", r2),
          ("pvp_3v3_rating", r3),
          ("pvp_rbg_rating", rbg),
          ("pvp_honor_level", honor),
          ("pvp_wins_season", .num wins)]

/-- `_fetch_pvp_data` with its feature gate and `except` clause. -/
def fetchPvpGated (enabled : Bool) (pvpData : Json) : Record :=
  if enabled then
    match fetchPvp pvpData with
    | .ok r => r
    | .error _ => []
  else []

/-! ## Raid progress (sensor.py, `_fetch_raid_data`) -/

/-- Accumulated raid counters: LFR, Normal, Heroic, Mythic, total. -/
structure RaidAcc where
  lfr : Int
  normal : Int
  heroic : Int
  mythic : Int
  total : Int

/-- The body of the innermost loop of `_fetch_raid_data`: bucket one
mode's completed-boss count by the case-insensitive substring chain on
the difficulty name, then add it to the total unconditionally. -/
def raidStepAcc (difficulty : String) (completed : Int) (acc : RaidAcc) : RaidAcc :=
  let low := pyLower difficulty
  let acc2 :=
    if pyInStr "raid finder" low then { acc with lfr := acc.lfr + completed }
    else if pyInStr "normal" low then { acc with normal := acc.normal + completed }
    else if pyInStr "heroic" low then { acc with heroic := acc.heroic + completed }
    else if pyInStr "mythic" low then { acc with mythic := acc.mythic + completed }
    else acc
  { acc2 with total := acc2.total + completed }

/-- The innermost loop of `_fetch_raid_data`, over the difficulty
modes of one instance. -/
def raidModeLoop : List Json → RaidAcc → Except Unit RaidAcc
  | [], acc => .ok acc
  | mode :: rest, acc => do
    let difficulty ← asStr (← pyGetD (← pyGetD mode "difficulty" (.obj [])) "name" (.str ""))
    let progress ← pyGetD mode "progress" (.obj [])
    let completed ← asInt (← pyGetD progress "completed_count" (.num 0))
    let _totalEncounters ← pyGetD progress "total_count" (.num 0)
    raidModeLoop rest (raidStepAcc difficulty completed acc)

/-- The loop over the instances of one expansion. -/
def raidInstanceLoop : List Json → RaidAcc → Except Unit RaidAcc
  | [], acc => .ok acc
  | inst :: rest, acc => do
    let modes ← asArr (← pyGetD inst "modes" (.arr []))
    let acc2 ← raidModeLoop modes acc
    raidInstanceLoop rest acc2

/-- The loop over the expansions, keeping only the current one. -/
def raidExpansionLoop : List Json → RaidAcc → Except Unit RaidAcc
  | [], acc => .ok acc
  | expansion :: rest, acc => do
    let nameJ ← pyGet (← pyGetD expansion "expansion" (.obj [])) "name"
    if !(isStrEq nameJ "The War Within") then raidExpansionLoop rest acc
    else do
      let instances ← asArr (← pyGetD expansion "instances" (.arr []))
      let acc2 ← raidInstanceLoop instances acc
      raidExpansionLoop rest acc2

/-- Embedding of the body of `_fetch_raid_data` on the already-fetched
encounters document. -/
def fetchRaid (encounters : Json) : Except Unit Record := do
  let acc ←
    if truthy encounters then do
      let has ← pyHasKey encounters "expansions"
      if has then do
        let expansions ← asArr (← pyIndex encounters "expansions")
        raidExpansionLoop expansions ⟨0, 0, 0, 0, 0⟩
      else
        pure ⟨0, 0, 0, 0, 0⟩
    else
      pure ⟨0, 0, 0, 0, 0⟩
  return [("raid_progress_lfr", .num acc.lfr),
          ("raid_progress_normal", .num acc.normal),
          ("raid_progress_heroic", .num acc.heroic),
          ("raid_progress_mythic", .num acc.mythic),
          ("raid_kills_total", .num acc.total)]

/-- `_fetch_raid_data` with its feature gate and `except` clause. -/
def fetchRaidGated (enabled : Bool) (encounters : Json) : Record :=
  if enabled then
    match fetchRaid encounters with
    | .ok r => r
    | .error _ => []
  else []

/-! ## Mythic+ data (sensor.py, `_fetch_mythicplus_data`) -/

/-- Running maximum over the keystone levels of the remaining runs. -/
def maxKeystoneFrom : List Json → Int → Except Unit Int
  | [], best => .ok best
  | run :: rest, best => do
    let lvl ← asInt (← pyGetD run "keystone_level" (.num 0))
    maxKeystoneFrom rest (max best lvl)

/-- Python `max` over the keystone levels of a nonempty run list
(`max(run.get("keystone_level", 0) for run in best_runs)`). -/
def maxKeystone : List Json → Except Unit Int
  | [] => .error ()
  | run :: rest => do
    let lvl ← asInt (← pyGetD run "keystone_level" (.num 0))
    maxKeystoneFrom rest lvl

/-- The timed-runs count
(`sum(1 for run in best_runs if run.get("is_completed_within_time", False))`). -/
def countTimedRuns : List Json → Int → Except Unit Int
  | [], acc => .ok acc
  | run :: rest, acc => do
    let timedJ ← pyGetD run "is_completed_within_time" (.bool false)
    countTimedRuns rest (if truthy timedJ then acc + 1 else acc)

/-- The simplified score sum
(`keystone_level * (125 if timed else 100)` over the best runs). -/
def scoreSum : List Json → Int → Except Unit Int
  | [], acc => .ok acc
  | run :: rest, acc => do
    let lvl ← asInt (← pyGetD run "keystone_level" (.num 0))
    let timedJ ← pyGet run "is_completed_within_time"
    scoreSum rest (acc + lvl * (if truthy timedJ then 125 else 100))

/-- Embedding of the body of `_fetch_mythicplus_data` on the
already-fetched profile and season documents. -/
def fetchMythicPlus (profile seasonData : Json) : Except Unit Record := do
  let (score, bestRun, runsCompleted, runsTimed) ←
    if truthy seasonData then do
      let bestRunsJ ← pyGetD seasonData "best_runs" (.arr [])
      let (bestRun, runsCompleted, runsTimed) ←
        if truthy bestRunsJ then do
          let runs ← asArr bestRunsJ
          let bestRun ← maxKeystone runs
          let runsTimed ← countTimedRuns runs 0
          pure (bestRun, (runs.length : Int), runsTimed)
        else
          pure ((0 : Int), (0 : Int), (0 : Int))
      let runs ← asArr bestRunsJ
      let score ← scoreSum runs 0
      pure (score, bestRun, runsCompleted, runsTimed)
    else
      pure ((0 : Int), (0 : Int), (0 : Int), (0 : Int))
  let weeklyBest ←
    if truthy profile then do
      let hasPeriod ← pyHasKey profile "current_period"
      if hasPeriod then do
        let currentPeriod ← pyIndex profile "current_period"
        let hasRuns ← pyHasKey currentPeriod "best_runs"
        if hasRuns then do
          let weeklyRunsJ ← pyIndex currentPeriod "best_runs"
          if truthy weeklyRunsJ then do
            let weeklyRuns ← asArr weeklyRunsJ
            maxKeystone weeklyRuns
          else
            pure (0 : Int)
        else
          pure (0 : Int)
      else
        pure (0 : Int)
    else
      pure (0 : Int)
  return [("mythicplus_score", .num score),
          ("mythicplus_best_run", .num bestRun),
          ("mythicplus_runs_completed", .num runsCompleted),
          ("mythicplus_runs_timed", .num runsTimed),
          ("mythicplus_weekly_best", .num weeklyBest)]

/-- `_fetch_mythicplus_data` with its feature gate and `except` clause. -/
def fetchMythicPlusGated (enabled : Bool) (profile seasonData : Json) : Record :=
  if enabled then
    match fetchMythicPlus profile seasonData with
    | .ok r => r
    | .error _ => []
  else []

/-! ## Snapshot assembly (sensor.py, `_async_update_data`) -/

/-- Python dict assignment `d[k] = v`: replaces in place when the key
exists, appends otherwise. -/
def pyInsert : List (String × Json) → String → Json → List (String × Json)
  | [], k, v => [(k, v)]
  | (k0, v0) :: rest, k, v =>
    if k0 == k then (k0, v) :: rest else (k0, v0) :: pyInsert rest k v

/-- Python dict merge `{**a, **b}`. -/
def mergeDicts (a b : Record) : Record :=
  b.foldl (fun m kv => pyInsert m kv.1 kv.2) a

/-- The merged per-character record
(`{**basic_data, **pvp_data, **raid_data, **mythicplus_data}`). -/
def characterRecord (basic pvp raid mplus : Record) : Record :=
  mergeDicts (mergeDicts (mergeDicts basic pvp) raid) mplus

/-- The snapshot key of a tracked character
(`char_key = f"{realm}-{name}"`). -/
def charKey (realm name : String) : String :=
  realm ++ "-" ++ name

/-- Embedding of the snapshot assembly in `_async_update_data`: one
entry per tracked character under its key (Python dict assignment, so
a repeated key replaces the earlier record), then the server records
under the fixed key "servers" and the previous success flag under
"last_update". The per-character fetch is abstracted by `fetchChar`. -/
def buildAllData (characters : List (String × String))
    (fetchChar : String → String → Record)
    (serverData : Json) (lastUpdate : Bool) : List (String × Json) :=
  let base := characters.foldl
    (fun m c => pyInsert m (charKey c.1 c.2) (Json.obj (fetchChar c.1 c.2))) []
  pyInsert (pyInsert base "servers" serverData) "last_update" (Json.bool lastUpdate)

/-! ## Declared metric sets (const.py sensor-type tables) -/

/-- The metric keys of `BASIC_SENSOR_TYPES` (const.py). -/
def basicSensorKeys : List String :=
  ["character_level", "character_item_level", "guild_name",
   "achievement_points", "character_money"]

/-- The metric keys of `PVP_SENSOR_TYPES` (const.py). -/
def pvpSensorKeys : List String :=
  ["pvp_2v2_rating", "pvp_3v3_rating", "pvp_rbg_rating",
   "pvp_honor_level", "pvp_wins_season"]

/-- The metric keys of `RAID_SENSOR_TYPES` (const.py). -/
def raidSensorKeys : List String :=
  ["raid_progress_lfr", "raid_progress_normal", "raid_progress_heroic",
   "raid_progress_mythic", "raid_kills_total"]

/-- The metric keys of `MYTHICPLUS_SENSOR_TYPES` (const.py). -/
def mythicPlusSensorKeys : List String :=
  ["mythicplus_score", "mythicplus_best_run", "mythicplus_runs_completed",
   "mythicplus_runs_timed", "mythicplus_weekly_best"]

/-- The keys present in a record. -/
def recordKeys (r : Record) : List String :=
  r.map Prod.fst

/-! ## Resource-fetcher endpoint paths (api_client.py) -/

/-- Endpoint path built by `get_character_profile` (api_client.py):
only `str.lower()` is applied to the realm and character name. -/
def characterProfileEndpoint (realm characterName : String) : String :=
  "/profile/wow/character/" ++ pyLower realm ++ "/" ++ pyLower characterName

/-- Endpoint path built by `get_realm_info` (api_client.py). -/
def realmInfoEndpoint (realm : String) : String :=
  "/data/wow/realm/" ++ pyLower realm

/-! ## Structured document constructors

Well-shaped documents of the forms the API delivers, used to quantify
the claims over the data they speak about. -/

/-- An equipped item, carrying an `item_level` field or not. -/
def mkItem : Option Int → Json
  | some lvl => .obj [("name", .str "item"), ("item_level", .num lvl)]
  | none => .obj [("name", .str "cosmetic")]

/-- An equipment document whose equipped items carry the given
(optional) item levels. -/
def mkEquipment (levels : List (Option Int)) : Json :=
  .obj [("equipped_items", .arr (levels.map mkItem))]

/-- A PvP summary document, with or without an `honor_level` field. -/
def mkSummary : Option Int → Json
  | some h => .obj [("honor_level", .num h)]
  | none => .obj []

/-- A PvP bracket document with an optional `rating` field and an
optional `season_match_statistics.won` field. -/
def mkBracket (rating wins : Option Int) : Json :=
  .obj ((match rating with
         | some r => [("rating", Json.num r)]
         | none => []) ++
        (match wins with
         | some w => [("season_match_statistics", Json.obj [("won", Json.num w)])]
         | none => []))

/-- One difficulty mode of a raid instance: difficulty name and
completed-boss count. -/
def mkMode (m : String × Int) : Json :=
  .obj [("difficulty", .obj [("name", .str m.1)]),
        ("progress", .obj [("completed_count", .num m.2)])]

/-- One raid instance: its list of difficulty modes. -/
def mkInstance (inst : List (String × Int)) : Json :=
  .obj [("modes", .arr (inst.map mkMode))]

/-- One expansion entry: expansion name and its instances, each a list
of difficulty modes. -/
def mkExpansion (e : String × List (List (String × Int))) : Json :=
  .obj [("expansion", .obj [("name", .str e.1)]),
        ("instances", .arr (e.2.map mkInstance))]

/-- A raid encounters document. -/
def mkEncounters (es : List (String × List (List (String × Int)))) : Json :=
  .obj [("expansions", .arr (es.map mkExpansion))]

/-- One Mythic+ run: keystone level and timed flag. -/
def mkRun (r : Int × Bool) : Json :=
  .obj [("keystone_level", .num r.1),
        ("is_completed_within_time", .bool r.2)]

/-- A Mythic+ season document with the given best-run list. -/
def mkSeason (runs : List (Int × Bool)) : Json :=
  .obj [("best_runs", .arr (runs.map mkRun))]

/-- A Mythic+ profile document, with or without a current period
carrying its own best-run list. -/
def mkMythicPlusProfile : Option (List (Int × Bool)) → Json
  | some weeklyRuns =>
    .obj [("current_period", .obj [("best_runs", .arr (weeklyRuns.map mkRun))])]
  | none => .obj []

/-! ## Specification-side functions

These are written from the spec's words, to be compared with the
embeddings of the source. -/

/-- Modelled from the spec: "average of `item_level` across equipped
items that carry one (items without excluded from both numerator and
denominator); 0 if no such items", the average rounded as Python
rounds. -/
def specItemLevel (levels : List (Option Int)) : Int :=
  let present := levels.filterMap id
  if present.isEmpty then 0 else pyRound present.sum (present.length : Int)

/-- Modelled from the spec: "integer-divide the raw copper amount by
10000" — the gold extraction the spec describes. -/
def specGold (copper : Int) : Int :=
  Int.fdiv copper 10000

/-- The difficulty tier a difficulty name is bucketed into by the
case-insensitive substring chain (0 = LFR, 1 = Normal, 2 = Heroic,
3 = Mythic), or none when no bucket matches. -/
def tierOf (difficultyName : String) : Option Nat :=
  let low := pyLower difficultyName
  if pyInStr "raid finder" low then some 0
  else if pyInStr "normal" low then some 1
  else if pyInStr "heroic" low then some 2
  else if pyInStr "mythic" low then some 3
  else none

/-- Sum of the completed-boss counts of the modes in a flat mode list
whose difficulty name falls in tier `t`. -/
def modesBucket (ms : List (String × Int)) (t : Nat) : Int :=
  ((ms.filter (fun m => tierOf m.1 == some t)).map Prod.snd).sum

/-- Sum of the completed-boss counts of all modes in a flat mode list. -/
def modesTotal (ms : List (String × Int)) : Int :=
  (ms.map Prod.snd).sum

/-- All difficulty modes under the current expansion, flattened. -/
def currentModes (es : List (String × List (List (String × Int)))) :
    List (String × Int) :=
  (es.filter (fun e => e.1 == "The War Within")).flatMap (fun e => e.2.flatMap id)

/-- Sum of completed-boss counts bucketed into tier `t` under the
current expansion. -/
def bucketSum (es : List (String × List (List (String × Int)))) (t : Nat) : Int :=
  modesBucket (currentModes es) t

/-- Sum of completed-boss counts over all difficulty modes under the
current expansion, whether or not a bucket matches. -/
def totalKills (es : List (String × List (List (String × Int)))) : Int :=
  modesTotal (currentModes es)

/-- The raid metric record with the given counters. -/
def raidRecord (lfr normal heroic mythic total : Int) : Record :=
  [("raid_progress_lfr", .num lfr),
   ("raid_progress_normal", .num normal),
   ("raid_progress_heroic", .num heroic),
   ("raid_progress_mythic", .num mythic),
   ("raid_kills_total", .num total)]

/-- Modelled from the spec: score = sum over runs of
`keystone_level × (125 if timed else 100)`. -/
def specScore (runs : List (Int × Bool)) : Int :=
  (runs.map (fun r => r.1 * (if r.2 then 125 else 100))).sum

/-- Maximum keystone level of a run-level list, 0 when empty. -/
def maxLevels : List Int → Int
  | [] => 0
  | l :: ls => ls.foldl max l

/-- Number of timed runs. -/
def specTimedCount (runs : List (Int × Bool)) : Int :=
  ((runs.filter (fun r => r.2)).length : Int)

/-- Modelled from the spec: weekly best = max keystone level among the
current period's best runs (0 when there is no current period or no
weekly run), independent of season data. -/
def specWeekly : Option (List (Int × Bool)) → Int
  | none => 0
  | some ws => maxLevels (ws.map Prod.fst)

/-- The Mythic+ metric record with the given values. -/
def mythicPlusRecord (score best completed timed weekly : Int) : Record :=
  [("mythicplus_score", .num score),
   ("mythicplus_best_run", .num best),
   ("mythicplus_runs_completed", .num completed),
   ("mythicplus_runs_timed", .num timed),
   ("mythicplus_weekly_best", .num weekly)]

/-- Modelled from the spec: a bracket contributes its season wins to
the wins sum exactly when its rating field is present. -/
def specPvpWins (rating wins : Option Int) : Int :=
  if rating.isSome then wins.getD 0 else 0

/-- The PvP metric record with the given values. -/
def pvpRecord (r2 r3 rbg honor : Json) (wins : Int) : Record :=
  [("pvp_2v2_rating", r2),
   ("pvp_3v3_rating", r3),
   ("pvp_rbg_rating", rbg),
   ("pvp_honor_level", honor),
   ("pvp_wins_season", .num wins)]

/-- Modelled from the spec: a string in API slug form has no spaces
and no apostrophes and is entirely lowercase. -/
def isSlugForm (s : String) : Bool :=
  s.data.all (fun c => c != ' ' && c != Char.ofNat 39 && Char.toLower c == c)

/-! ## Theorems -/

/-- Claim C2, counterexample: a 429 followed by another 429 and then a
200 makes `_make_request` wait and retry twice — three attempts in all
— before returning the 200 payload, so "never more than one retry"
(at most two attempts) is false. -/
theorem C2_counterexample :
    makeRequest [ev429, ev429, HttpEvent.response 200 (Json.str "payload")] =
      some (Json.str "payload", 3) ∧ ¬ ((3 : Nat) ≤ 2) := by
  constructor
  · rfl
  · decide

/-- Claim C2 (amended): a 429 response causes one fixed-duration wait
followed by a retry of the same request, recursively without bound —
after any number of consecutive 429 responses, the first non-429
event's outcome is returned exactly once to the caller, with one
attempt per preceding 429 plus the final one. -/
theorem C2_theorem :
    ∀ (pre : List HttpEvent) (e : HttpEvent) (rest : List HttpEvent),
      (∀ x ∈ pre, is429 x = true) → is429 e = false →
      makeRequest (pre ++ e :: rest) = some (outcomeOf e, pre.length + 1) := by
  intro pre
  induction pre with
  | nil =>
    intro e rest _ he
    cases e with
    | response s body =>
      simp only [is429] at he
      by_cases h200 : (s == 200) = true
      · simp [makeRequest, outcomeOf, h200]
      · by_cases h404 : (s == 404) = true
        · simp [makeRequest, outcomeOf, h200, h404, he]
        · simp [makeRequest, outcomeOf, h200, h404, he]
    | timeout => simp [makeRequest, outcomeOf]
    | netError => simp [makeRequest, outcomeOf]
  | cons x pre ih =>
    intro e rest hpre he
    have hx := hpre x (by simp)
    cases x with
    | response s body =>
      simp only [is429, beq_iff_eq] at hx
      subst hx
      have htail := ih e rest (fun y hy => hpre y (by simp [hy])) he
      simp only [List.cons_append, makeRequest]
      norm_num
      rw [htail]
    | timeout => simp [is429] at hx
    | netError => simp [is429] at hx

/-- Claim C2, witness: one 429 then a 200 returns the 200 payload in
two attempts. -/
theorem C2_witness :
    makeRequest [ev429, HttpEvent.response 200 (Json.str "payload")] =
      some (Json.str "payload", 2) := by
  have h := C2_theorem [ev429] (HttpEvent.response 200 (Json.str "payload")) []
    (by intro x hx; simp at hx; subst hx; rfl) (by rfl)
  simpa [outcomeOf] using h

/-- Claim C3: a 404, any other non-200 (and non-429) status, and a
network/timeout error during the request all yield the empty document
from `_make_request`; the embedding returns a document in every such
case (no exception channel is reachable). -/
theorem C3_theorem :
    ∀ (s : Nat) (body : Json) (rest : List HttpEvent),
      s ≠ 200 → s ≠ 429 →
      makeRequest (HttpEvent.response s body :: rest) = some (emptyDoc, 1) ∧
      makeRequest (HttpEvent.timeout :: rest) = some (emptyDoc, 1) ∧
      makeRequest (HttpEvent.netError :: rest) = some (emptyDoc, 1) := by
  intro s body rest h200 h429
  refine ⟨?_, rfl, rfl⟩
  by_cases h404 : (s == 404) = true
  · simp [makeRequest, h200, h404]
  · simp [makeRequest, h200, h404, h429]

/-- Claim C3, witness: a single 404 response, a timeout and a network
error each return the empty document in one attempt. -/
theorem C3_witness :
    makeRequest [HttpEvent.response 404 (Json.str "gone")] = some (emptyDoc, 1) ∧
    makeRequest [HttpEvent.timeout] = some (emptyDoc, 1) ∧
    makeRequest [HttpEvent.netError] = some (emptyDoc, 1) :=
  C3_theorem 404 (Json.str "gone") [] (by decide) (by decide)

/-- The item-level loop accumulates the sum and count of exactly the
items that carry an `item_level` field. -/
lemma sumItemLevels_map :
    ∀ (levels : List (Option Int)) (t c : Int),
      sumItemLevels (levels.map mkItem) t c =
        .ok (t + (levels.filterMap id).sum, c + ((levels.filterMap id).length : Int)) := by
  intro levels
  induction levels with
  | nil => intro t c; simp [sumItemLevels]
  | cons o rest ih =>
    intro t c
    cases o with
    | some lvl =>
      have hstep : sumItemLevels ((some lvl :: rest).map mkItem) t c =
          sumItemLevels (rest.map mkItem) (t + lvl) (c + 1) := rfl
      rw [hstep, ih]
      simp only [List.filterMap_cons, id_eq, List.sum_cons, List.length_cons,
        Except.ok.injEq, Prod.mk.injEq]
      constructor <;> push_cast <;> ring
    | none =>
      have hstep : sumItemLevels ((none :: rest).map mkItem) t c =
          sumItemLevels (rest.map mkItem) t c := rfl
      rw [hstep, ih]
      simp [List.filterMap_cons]

/-- On every well-shaped equipment document the embedded item-level
computation yields the spec's rounded average of the carried item
levels. -/
lemma computeItemLevel_mk (levels : List (Option Int)) :
    computeItemLevel (mkEquipment levels) = .ok (specItemLevel levels) := by
  cases levels with
  | nil => rfl
  | cons l ls =>
    have h := sumItemLevels_map (l :: ls) 0 0
    show (sumItemLevels ((l :: ls).map mkItem) 0 0 >>= fun tc =>
        if 0 < tc.2 then pure (pyRound tc.1 tc.2) else pure 0) =
      .ok (specItemLevel (l :: ls))
    rw [h]
    show (if 0 < 0 + (((l :: ls).filterMap id).length : Int) then
        Except.ok (pyRound (0 + ((l :: ls).filterMap id).sum)
          (0 + (((l :: ls).filterMap id).length : Int)))
      else Except.ok 0) = .ok (specItemLevel (l :: ls))
    unfold specItemLevel
    generalize ((l :: ls).filterMap id) = present
    cases present with
    | nil => simp
    | cons p ps => simp [Nat.cast_add]

/-- Claim C4: the item-level metric is the rounded average of
`item_level` over exactly the equipped items that carry the field
(items without one excluded from numerator and denominator), it is 0
when no item carries the field, and for items [200, 210, 190] it is
200. -/
theorem C4_theorem :
    (∀ levels : List (Option Int),
      computeItemLevel (mkEquipment levels) = .ok (specItemLevel levels)) ∧
    computeItemLevel (mkEquipment [some 200, some 210, some 190]) = .ok 200 ∧
    computeItemLevel (mkEquipment [none, none]) = .ok 0 :=
  ⟨computeItemLevel_mk, rfl, rfl⟩

/-- The merged record of a cycle in which every feature is enabled and
every fetch degraded to the empty document. -/
def allEmptyCycleRecord : Record :=
  characterRecord (fetchBasicSafe emptyDoc emptyDoc emptyDoc)
    (fetchPvpGated true (getAllPvpData emptyDoc emptyDoc emptyDoc emptyDoc))
    (fetchRaidGated true emptyDoc)
    (fetchMythicPlusGated true emptyDoc emptyDoc)

/-- Claim C1: on a cycle with all features enabled and every fetch
returning the empty document, the declared key `character_money` of
the always-enabled basic category is missing from the merged record,
while every other declared key of every enabled category is present —
the code never produces the declared gold metric, so a consumer does
observe a missing key for an enabled category. -/
theorem C1_theorem :
    "character_money" ∈ basicSensorKeys ∧
    "character_money" ∉ recordKeys allEmptyCycleRecord ∧
    (∀ k ∈ (basicSensorKeys.erase "character_money") ++ pvpSensorKeys ++
        raidSensorKeys ++ mythicPlusSensorKeys,
      k ∈ recordKeys allEmptyCycleRecord) := by
  decide

/-- Claim C5: the gold extraction the spec describes would yield 1
gold from 12345 copper and 0 from 0 copper, but the basic-data record
built from a profile that carries `money = 12345` contains no
`character_money` key at all — the code never divides the copper
amount. -/
theorem C5_theorem :
    specGold 12345 = 1 ∧ specGold 0 = 0 ∧
    "character_money" ∉ recordKeys (fetchBasicSafe
      (Json.obj [("level", .num 60), ("money", .num 12345)]) emptyDoc emptyDoc) := by
  decide

/-- Binding a successful `Except` computation runs the continuation. -/
lemma ok_bind {α β : Type} (a : α) (f : α → Except Unit β) :
    (Except.ok a >>= f) = f a := rfl

/-- One raid bucketing step, expressed through the tier of the
difficulty name. -/
lemma raidStepAcc_eq (difficulty : String) (completed : Int) (acc : RaidAcc) :
    raidStepAcc difficulty completed acc =
      ⟨acc.lfr + (if tierOf difficulty = some 0 then completed else 0),
       acc.normal + (if tierOf difficulty = some 1 then completed else 0),
       acc.heroic + (if tierOf difficulty = some 2 then completed else 0),
       acc.mythic + (if tierOf difficulty = some 3 then completed else 0),
       acc.total + completed⟩ := by
  unfold raidStepAcc tierOf
  by_cases h1 : pyInStr "raid finder" (pyLower difficulty) = true
  · simp [h1]
  · by_cases h2 : pyInStr "normal" (pyLower difficulty) = true
    · simp [h1, h2]
    · by_cases h3 : pyInStr "heroic" (pyLower difficulty) = true
      · simp [h1, h2, h3]
      · by_cases h4 : pyInStr "mythic" (pyLower difficulty) = true
        · simp [h1, h2, h3, h4]
        · simp [h1, h2, h3, h4]

/-- A flat-list bucket sum unfolds over a cons cell. -/
lemma modesBucket_cons (m : String × Int) (ms : List (String × Int)) (t : Nat) :
    modesBucket (m :: ms) t =
      (if tierOf m.1 = some t then m.2 else 0) + modesBucket ms t := by
  unfold modesBucket
  by_cases h : tierOf m.1 = some t <;> simp [List.filter_cons, h]

/-- The mode loop of `_fetch_raid_data` accumulates the four bucket
sums and the unconditional total of a flat mode list. -/
lemma raidModeLoop_map :
    ∀ (ms : List (String × Int)) (acc : RaidAcc),
      raidModeLoop (ms.map mkMode) acc =
        .ok ⟨acc.lfr + modesBucket ms 0, acc.normal + modesBucket ms 1,
             acc.heroic + modesBucket ms 2, acc.mythic + modesBucket ms 3,
             acc.total + modesTotal ms⟩ := by
  intro ms
  induction ms with
  | nil => intro acc; simp [raidModeLoop, modesBucket, modesTotal]
  | cons m rest ih =>
    intro acc
    have hstep : raidModeLoop ((m :: rest).map mkMode) acc =
        raidModeLoop (rest.map mkMode) (raidStepAcc m.1 m.2 acc) := rfl
    rw [hstep, ih, raidStepAcc_eq]
    simp only [modesBucket_cons, Except.ok.injEq, RaidAcc.mk.injEq, modesTotal,
      List.map_cons, List.sum_cons]
    refine ⟨by ring, by ring, by ring, by ring, by ring⟩

/-- Bucket sums and totals are additive over list append. -/
lemma modesBucket_append (a b : List (String × Int)) (t : Nat) :
    modesBucket (a ++ b) t = modesBucket a t + modesBucket b t := by
  simp [modesBucket]

/-- Mode totals are additive over list append. -/
lemma modesTotal_append (a b : List (String × Int)) :
    modesTotal (a ++ b) = modesTotal a + modesTotal b := by
  simp [modesTotal]

/-- The instance loop of `_fetch_raid_data` accumulates over the
flattened modes of all instances. -/
lemma raidInstanceLoop_map :
    ∀ (insts : List (List (String × Int))) (acc : RaidAcc),
      raidInstanceLoop (insts.map mkInstance) acc =
        .ok ⟨acc.lfr + modesBucket (insts.flatMap id) 0,
             acc.normal + modesBucket (insts.flatMap id) 1,
             acc.heroic + modesBucket (insts.flatMap id) 2,
             acc.mythic + modesBucket (insts.flatMap id) 3,
             acc.total + modesTotal (insts.flatMap id)⟩ := by
  intro insts
  induction insts with
  | nil => intro acc; simp [raidInstanceLoop, modesBucket, modesTotal]
  | cons inst rest ih =>
    intro acc
    have hstep : raidInstanceLoop ((inst :: rest).map mkInstance) acc =
        (raidModeLoop (inst.map mkMode) acc >>= fun acc2 =>
          raidInstanceLoop (rest.map mkInstance) acc2) := rfl
    rw [hstep, raidModeLoop_map, ok_bind, ih]
    simp only [List.flatMap_cons, id_eq, modesBucket_append, modesTotal_append,
      Except.ok.injEq, RaidAcc.mk.injEq]
    refine ⟨by ring, by ring, by ring, by ring, by ring⟩

/-- The expansion loop of `_fetch_raid_data` accumulates exactly over
the current expansion's modes. -/
lemma raidExpansionLoop_map :
    ∀ (es : List (String × List (List (String × Int)))) (acc : RaidAcc),
      raidExpansionLoop (es.map mkExpansion) acc =
        .ok ⟨acc.lfr + bucketSum es 0, acc.normal + bucketSum es 1,
             acc.heroic + bucketSum es 2, acc.mythic + bucketSum es 3,
             acc.total + totalKills es⟩ := by
  intro es
  induction es with
  | nil =>
    intro acc
    simp [raidExpansionLoop, bucketSum, totalKills, currentModes, modesBucket, modesTotal]
  | cons e rest ih =>
    intro acc
    have hstep : raidExpansionLoop ((e :: rest).map mkExpansion) acc =
        (if !(e.1 == "The War Within") then
          raidExpansionLoop (rest.map mkExpansion) acc
        else
          (raidInstanceLoop (e.2.map mkInstance) acc >>= fun acc2 =>
            raidExpansionLoop (rest.map mkExpansion) acc2)) := rfl
    rw [hstep]
    by_cases hcur : (e.1 == "The War Within") = true
    · rw [if_neg (by simp [hcur]), raidInstanceLoop_map, ok_bind, ih]
      simp only [bucketSum, totalKills, currentModes, List.filter_cons, hcur,
        if_pos, List.flatMap_cons, modesBucket_append, modesTotal_append,
        Except.ok.injEq, RaidAcc.mk.injEq]
      refine ⟨by ring, by ring, by ring, by ring, by ring⟩
    · have hc : (e.1 == "The War Within") = false := by
        simpa using hcur
      rw [if_pos (by simp [hc]), ih]
      simp [bucketSum, totalKills, currentModes, hc]

/-- Claim C6 (amended): only current-expansion entries contribute;
completed counts are bucketed into LFR/Normal/Heroic/Mythic by the
case-insensitive substring chain, and the total-kills metric is the
sum of the completed counts of all current-expansion modes — including
modes matching no bucket — so it equals the bucket sum only when every
difficulty matches a bucket; a Heroic completed=3 plus Mythic
completed=1 document yields heroic=3, mythic=1, total=4. -/
theorem C6_theorem :
    (∀ es : List (String × List (List (String × Int))),
      fetchRaid (mkEncounters es) =
        .ok (raidRecord (bucketSum es 0) (bucketSum es 1) (bucketSum es 2)
          (bucketSum es 3) (totalKills es))) ∧
    fetchRaid (mkEncounters [("The War Within", [[("Heroic", 3), ("Mythic", 1)]])]) =
      .ok (raidRecord 0 0 3 1 4) := by
  constructor
  · intro es
    have hstep : fetchRaid (mkEncounters es) =
        (raidExpansionLoop (es.map mkExpansion) ⟨0, 0, 0, 0, 0⟩ >>= fun acc =>
          pure (raidRecord acc.lfr acc.normal acc.heroic acc.mythic acc.total)) := rfl
    rw [hstep, raidExpansionLoop_map, ok_bind]
    simp only [zero_add]
    rfl
  · rfl

/-- Claim C6, counterexample: a current-expansion mode whose
difficulty ("Timewalking") matches no tier bucket leaves all four
buckets at 0 yet contributes its completed count 5 to the total, so
the total-kills metric does not equal the sum of the four buckets. -/
theorem C6_counterexample :
    fetchRaid (mkEncounters [("The War Within", [[("Timewalking", 5)]])]) =
      .ok (raidRecord 0 0 0 0 5) ∧ (5 : Int) ≠ 0 + 0 + 0 + 0 := by
  exact ⟨rfl, by decide⟩

/-- The keystone running maximum over a well-shaped run list folds
`max` over the keystone levels. -/
lemma maxKeystoneFrom_map :
    ∀ (runs : List (Int × Bool)) (best : Int),
      maxKeystoneFrom (runs.map mkRun) best =
        .ok (runs.foldl (fun b r => max b r.1) best) := by
  intro runs
  induction runs with
  | nil => intro best; rfl
  | cons r rest ih =>
    intro best
    have hstep : maxKeystoneFrom ((r :: rest).map mkRun) best =
        maxKeystoneFrom (rest.map mkRun) (max best r.1) := rfl
    rw [hstep, ih]
    rfl

/-- Python `max` over a nonempty well-shaped run list is the maximum
keystone level. -/
lemma maxKeystone_map (r : Int × Bool) (rs : List (Int × Bool)) :
    maxKeystone ((r :: rs).map mkRun) = .ok (maxLevels ((r :: rs).map Prod.fst)) := by
  have hstep : maxKeystone ((r :: rs).map mkRun) =
      maxKeystoneFrom (rs.map mkRun) r.1 := rfl
  rw [hstep, maxKeystoneFrom_map]
  simp [maxLevels, List.foldl_map]

/-- The timed-runs count over a well-shaped run list counts the runs
with the timed flag set. -/
lemma countTimedRuns_map :
    ∀ (runs : List (Int × Bool)) (acc : Int),
      countTimedRuns (runs.map mkRun) acc = .ok (acc + specTimedCount runs) := by
  intro runs
  induction runs with
  | nil => intro acc; simp [countTimedRuns, specTimedCount]
  | cons r rest ih =>
    intro acc
    have hstep : countTimedRuns ((r :: rest).map mkRun) acc =
        countTimedRuns (rest.map mkRun) (if r.2 then acc + 1 else acc) := rfl
    rw [hstep, ih]
    by_cases h : r.2
    · simp [h, specTimedCount, List.filter_cons]
      ring
    · simp [h, specTimedCount, List.filter_cons]

/-- The score sum over a well-shaped run list is the spec's simplified
score formula. -/
lemma scoreSum_map :
    ∀ (runs : List (Int × Bool)) (acc : Int),
      scoreSum (runs.map mkRun) acc = .ok (acc + specScore runs) := by
  intro runs
  induction runs with
  | nil => intro acc; simp [scoreSum, specScore]
  | cons r rest ih =>
    intro acc
    have hstep : scoreSum ((r :: rest).map mkRun) acc =
        scoreSum (rest.map mkRun) (acc + r.1 * (if r.2 then 125 else 100)) := rfl
    rw [hstep, ih]
    simp only [specScore, List.map_cons, List.sum_cons, Except.ok.injEq]
    ring

/-- Reduction of truthiness on a season document. -/
lemma truthy_mkSeason (runs : List (Int × Bool)) : truthy (mkSeason runs) = true := rfl

/-- Reduction of the best-runs lookup on a season document. -/
lemma pyGetD_mkSeason (runs : List (Int × Bool)) (d : Json) :
    pyGetD (mkSeason runs) "best_runs" d = .ok (.arr (runs.map mkRun)) := rfl

/-- Iterating a JSON array yields its elements. -/
lemma asArr_arr (l : List Json) : asArr (.arr l) = .ok l := rfl

/-- A nonempty run array is truthy. -/
lemma truthy_map_cons (r : Int × Bool) (rs : List (Int × Bool)) :
    truthy (.arr ((r :: rs).map mkRun)) = true := rfl

/-- An empty JSON array is falsy. -/
lemma truthy_arr_nil : truthy (.arr []) = false := rfl

/-- A profile without a current period is the falsy empty dict. -/
lemma truthy_mkProfile_none : truthy (mkMythicPlusProfile none) = false := rfl

/-- A profile with a current period is truthy. -/
lemma truthy_mkProfile_some (ws : List (Int × Bool)) :
    truthy (mkMythicPlusProfile (some ws)) = true := rfl

/-- A profile with a current period contains the key. -/
lemma pyHasKey_mkProfile_some (ws : List (Int × Bool)) :
    pyHasKey (mkMythicPlusProfile (some ws)) "current_period" = .ok true := rfl

/-- Indexing the current period of a profile that has one. -/
lemma pyIndex_mkProfile_some (ws : List (Int × Bool)) :
    pyIndex (mkMythicPlusProfile (some ws)) "current_period" =
      .ok (.obj [("best_runs", .arr (ws.map mkRun))]) := rfl

/-- A current-period object carries its best-runs key. -/
lemma pyHasKey_period (x : Json) :
    pyHasKey (.obj [("best_runs", x)]) "best_runs" = .ok true := rfl

/-- Indexing the best runs of a current-period object. -/
lemma pyIndex_period (x : Json) :
    pyIndex (.obj [("best_runs", x)]) "best_runs" = .ok x := rfl

/-- A pure `Except` value is a success. -/
lemma pureEq {a : Type} (x : a) : (pure x : Except Unit a) = .ok x := rfl

/-- The Mythic+ extractor on well-shaped season and profile documents
produces exactly the spec's five metrics. -/
lemma fetchMythicPlus_mk (weekly : Option (List (Int × Bool))) (runs : List (Int × Bool)) :
    fetchMythicPlus (mkMythicPlusProfile weekly) (mkSeason runs) =
      .ok (mythicPlusRecord (specScore runs) (maxLevels (runs.map Prod.fst))
        (runs.length : Int) (specTimedCount runs) (specWeekly weekly)) := by
  unfold fetchMythicPlus
  cases runs with
  | nil =>
    cases weekly with
    | none => rfl
    | some ws =>
      cases ws with
      | nil => rfl
      | cons w rest =>
        simp only [truthy_mkSeason, pyGetD_mkSeason, asArr_arr, ok_bind, pureEq,
          truthy_mkProfile_some, pyHasKey_mkProfile_some, pyIndex_mkProfile_some,
          pyHasKey_period, pyIndex_period, truthy_map_cons,
          if_true, if_false, eq_self_iff_true, Bool.false_eq_true, ite_false, ite_true]
        rw [maxKeystone_map]
        simp only [ok_bind, pureEq]
        rfl
  | cons r rs =>
    simp only [truthy_mkSeason, pyGetD_mkSeason, asArr_arr, ok_bind, pureEq,
      truthy_map_cons, if_true, if_false, eq_self_iff_true, ite_false, ite_true]
    rw [maxKeystone_map]
    simp only [ok_bind]
    rw [countTimedRuns_map]
    simp only [ok_bind, pureEq]
    rw [scoreSum_map]
    simp only [ok_bind, pureEq]
    cases weekly with
    | none =>
      simp only [truthy_mkProfile_none, Bool.false_eq_true, ite_false, pureEq, ok_bind]
      simp [mythicPlusRecord, specWeekly, List.length_map]
    | some ws =>
      cases ws with
      | nil =>
        simp only [truthy_mkProfile_some, pyHasKey_mkProfile_some, pyIndex_mkProfile_some,
          pyHasKey_period, pyIndex_period, ok_bind, pureEq, if_true, if_false, List.map_nil,
          truthy_arr_nil, Bool.false_eq_true, eq_self_iff_true, ite_true, ite_false]
        simp [mythicPlusRecord, specWeekly, List.length_map, maxLevels]
      | cons w rest =>
        simp only [truthy_mkProfile_some, pyHasKey_mkProfile_some, pyIndex_mkProfile_some,
          pyHasKey_period, pyIndex_period, ok_bind, pureEq, truthy_map_cons, asArr_arr,
          if_true, if_false, eq_self_iff_true, ite_true, ite_false]
        rw [maxKeystone_map]
        simp only [ok_bind, pureEq]
        simp [mythicPlusRecord, specWeekly, List.length_map]

/-- Claim C7: on every well-shaped season and profile document the
Mythic+ metrics are score = sum of `keystone_level × (125 if timed
else 100)`, best run = max keystone level, runs completed = number of
runs, runs timed = number of timed runs, and weekly best = max
keystone level of the profile's current period, independent of season
data; runs [(10, timed), (8, untimed)] give score 2050, best 10,
completed 2, timed 1. -/
theorem C7_theorem :
    (∀ (weekly : Option (List (Int × Bool))) (runs : List (Int × Bool)),
      fetchMythicPlus (mkMythicPlusProfile weekly) (mkSeason runs) =
        .ok (mythicPlusRecord (specScore runs) (maxLevels (runs.map Prod.fst))
          (runs.length : Int) (specTimedCount runs) (specWeekly weekly))) ∧
    fetchMythicPlus (mkMythicPlusProfile none) (mkSeason [(10, true), (8, false)]) =
      .ok (mythicPlusRecord 2050 10 2 1 0) :=
  ⟨fetchMythicPlus_mk, rfl⟩

/-- Reduction of items-view on the combined PvP document. -/
lemma asObj_getAll (s d2 d3 d4 : Json) :
    asObj (getAllPvpData s d2 d3 d4) =
      .ok [("summary", s), ("2v2", d2), ("3v3", d3), ("rbg", d4)] := rfl

lemma truthy_mkSummary_none : truthy (mkSummary none) = false := rfl

lemma truthy_mkSummary_some (h : Int) : truthy (mkSummary (some h)) = true := rfl

lemma pyGet_getAll_summary (s d2 d3 d4 : Json) :
    pyGet (getAllPvpData s d2 d3 d4) "summary" = .ok s := rfl

lemma pyIndex_getAll_summary (s d2 d3 d4 : Json) :
    pyIndex (getAllPvpData s d2 d3 d4) "summary" = .ok s := rfl

lemma pyGetD_mkSummary_some (h : Int) (d : Json) :
    pyGetD (mkSummary (some h)) "honor_level" d = .ok (.num h) := rfl

lemma pvpLoop_summary (s : Json) (rest : List (String × Json)) (a b c : Json) (w : Int) :
    pvpLoop (("summary", s) :: rest) a b c w = pvpLoop rest a b c w := rfl

lemma pvpLoop_nil (a b c : Json) (w : Int) :
    pvpLoop [] a b c w = .ok (a, b, c, w) := rfl

lemma pvpLoop_step2 (r w : Option Int) (rest : List (String × Json)) (a b c : Json) (ws : Int) :
    pvpLoop (("2v2", mkBracket r w) :: rest) a b c ws =
      pvpLoop rest (if r.isSome then .num (r.getD 0) else a) b c (ws + specPvpWins r w) := by
  cases r with
  | none => cases w <;> simp [specPvpWins, mkBracket, pvpLoop, truthy, pyHasKey, pyIndex, pyGetD, asInt, lookupField, ok_bind, pureEq]
  | some x => cases w <;> simp [specPvpWins, mkBracket, pvpLoop, truthy, pyHasKey, pyIndex, pyGetD, asInt, lookupField, ok_bind, pureEq]

lemma pvpLoop_step3 (r w : Option Int) (rest : List (String × Json)) (a b c : Json) (ws : Int) :
    pvpLoop (("3v3", mkBracket r w) :: rest) a b c ws =
      pvpLoop rest a (if r.isSome then .num (r.getD 0) else b) c (ws + specPvpWins r w) := by
  cases r with
  | none => cases w <;> simp [specPvpWins, mkBracket, pvpLoop, truthy, pyHasKey, pyIndex, pyGetD, asInt, lookupField, ok_bind, pureEq]
  | some x => cases w <;> simp [specPvpWins, mkBracket, pvpLoop, truthy, pyHasKey, pyIndex, pyGetD, asInt, lookupField, ok_bind, pureEq]

lemma pvpLoop_stepRbg (r w : Option Int) (rest : List (String × Json)) (a b c : Json) (ws : Int) :
    pvpLoop (("rbg", mkBracket r w) :: rest) a b c ws =
      pvpLoop rest a b (if r.isSome then .num (r.getD 0) else c) (ws + specPvpWins r w) := by
  cases r with
  | none => cases w <;> simp [specPvpWins, mkBracket, pvpLoop, truthy, pyHasKey, pyIndex, pyGetD, asInt, lookupField, ok_bind, pureEq]
  | some x => cases w <;> simp [specPvpWins, mkBracket, pvpLoop, truthy, pyHasKey, pyIndex, pyGetD, asInt, lookupField, ok_bind, pureEq]

lemma fetchPvp_mk (honor r2 w2 r3 w3 rb wb : Option Int) :
    fetchPvp (getAllPvpData (mkSummary honor) (mkBracket r2 w2) (mkBracket r3 w3)
        (mkBracket rb wb)) =
      .ok (pvpRecord (.num (r2.getD 0)) (.num (r3.getD 0)) (.num (rb.getD 0))
        (.num (honor.getD 0))
        (specPvpWins r2 w2 + specPvpWins r3 w3 + specPvpWins rb wb)) := by
  unfold fetchPvp
  cases honor with
  | none =>
    simp only [pyGet_getAll_summary, ok_bind, truthy_mkSummary_none, Bool.false_eq_true,
      ite_false, pureEq, asObj_getAll, pvpLoop_summary, pvpLoop_step2, pvpLoop_step3,
      pvpLoop_stepRbg, pvpLoop_nil]
    cases r2 <;> cases r3 <;> cases rb <;>
      simp [pvpRecord, zero_add, specPvpWins]
  | some h =>
    simp only [pyGet_getAll_summary, ok_bind, truthy_mkSummary_some, Bool.true_eq_false,
      ite_true, pureEq, pyIndex_getAll_summary, pyGetD_mkSummary_some, asObj_getAll,
      pvpLoop_summary, pvpLoop_step2, pvpLoop_step3, pvpLoop_stepRbg, pvpLoop_nil,
      eq_self_iff_true, if_true]
    cases r2 <;> cases r3 <;> cases rb <;>
      simp [pvpRecord, zero_add, specPvpWins]

/-- Claim C8: each of the 2v2/3v3/RBG bracket ratings is taken from
its bracket document exactly when a rating field is present and stays
0 otherwise; honor level absent from the summary yields 0; and the
season-wins metric sums season wins over exactly the brackets whose
document has a present rating field. -/
theorem C8_theorem :
    ∀ honor r2 w2 r3 w3 rb wb : Option Int,
      fetchPvp (getAllPvpData (mkSummary honor) (mkBracket r2 w2) (mkBracket r3 w3)
          (mkBracket rb wb)) =
        .ok (pvpRecord (.num (r2.getD 0)) (.num (r3.getD 0)) (.num (rb.getD 0))
          (.num (honor.getD 0))
          (specPvpWins r2 w2 + specPvpWins r3 w3 + specPvpWins rb wb)) :=
  fetchPvp_mk

/-- Claim C9, counterexample: the realm name "Area 52" placed into the
character-profile endpoint path is only lowercased — the space
survives, so the name is not normalized to API slug form. -/
theorem C9_counterexample :
    characterProfileEndpoint "Area 52" "Thrall" =
      "/profile/wow/character/area 52/thrall" ∧
    isSlugForm (pyLower "Area 52") = false := by
  exact ⟨rfl, rfl⟩

/-- Claim C9 (amended): the resource fetchers apply only `str.lower()`
to the realm name before placing it in the endpoint path; spaces are
preserved, not removed or replaced, and no slug normalization
happens. -/
theorem C9_theorem :
    ∀ realm characterName : String,
      characterProfileEndpoint realm characterName =
        "/profile/wow/character/" ++ pyLower realm ++ "/" ++ pyLower characterName ∧
      realmInfoEndpoint realm = "/data/wow/realm/" ++ pyLower realm ∧
      (' ' ∈ realm.data → ' ' ∈ (pyLower realm).data) := by
  intro realm characterName
  refine ⟨rfl, rfl, ?_⟩
  intro hmem
  show ' ' ∈ realm.data.map Char.toLower
  exact List.mem_map.mpr ⟨' ', hmem, by decide⟩

/-- Claim C9, witness: the amended statement at realm "Area 52". -/
theorem C9_witness :
    characterProfileEndpoint "Area 52" "Thrall" =
      "/profile/wow/character/" ++ pyLower "Area 52" ++ "/" ++ pyLower "Thrall" ∧
    realmInfoEndpoint "Area 52" = "/data/wow/realm/" ++ pyLower "Area 52" ∧
    ' ' ∈ (pyLower "Area 52").data := by
  have h := C9_theorem "Area 52" "Thrall"
  exact ⟨h.1, h.2.1, h.2.2 (by decide)⟩

/-- Claim C10: the snapshot key is realm ++ "-" ++ name; it is not
injective — the distinct characters ("a-b", "c") and ("a", "b-c")
share the key "a-b-c", and in the assembled snapshot the later-fetched
record has replaced the earlier one; server records sit under the
fixed key "servers" in the same mapping. -/
theorem C10_theorem :
    ∀ (f : String → String → Record) (serverData : Json) (flag : Bool),
      charKey "a-b" "c" = charKey "a" "b-c" ∧
      ("a-b", "c") ≠ ("a", "b-c") ∧
      lookupField (buildAllData [("a-b", "c"), ("a", "b-c")] f serverData flag) "a-b-c" =
        some (Json.obj (f "a" "b-c")) ∧
      lookupField (buildAllData [("a-b", "c"), ("a", "b-c")] f serverData flag) "servers" =
        some serverData ∧
      (∀ realm name : String, charKey realm name = realm ++ "-" ++ name) := by
  intro f serverData flag
  exact ⟨rfl, by decide, rfl, rfl, fun _ _ => rfl⟩

end WowBlizzard
